/-
Verification of the cross-context message-correlation transport of
xxdk-WASM (`indexedDbWorker/worker.go`).

The Go code is embedded shallowly:

* Go `map` values become association lists `List (k × v)` with the
  operations `lookupA` (map read), `insertA` (map write) and `eraseA`
  (`delete`), which agree with Go map semantics for the uses made here.
* `uint64` becomes `Nat` with an explicit `% 2 ^ 64` at the one place the
  code increments a counter (`getNextID`).
* The JSON wire format produced by `encoding/json` is modelled at the
  level of JSON values (`Json` below); `[]byte` fields marshal to base64
  strings exactly as `encoding/json` does, and unmarshalling follows the
  documented `encoding/json` behaviour: absent fields keep their zero
  value, `null` leaves a field untouched, present fields of the wrong
  type are errors, duplicate keys are processed in order so the last
  occurrence wins.  Field matching is modelled as exact matching on the
  keys emitted by marshalling (Go additionally accepts case-insensitive
  matches; no input considered here exercises that).
* Handler functions (`HandlerFn`) are opaque values of a type parameter
  `H`; invoking a handler is modelled by returning the handler together
  with the data it was given.
-/
import Mathlib

set_option autoImplicit false

namespace WorkerModel

/-! ## Association-list maps (Go `map` semantics) -/

variable {κ ν : Type}

/-- Map read: first entry with the given key (keys are never duplicated by
`insertA`, so first = only). -/
def lookupA [DecidableEq κ] : List (κ × ν) → κ → Option ν
  | [], _ => none
  | (k, v) :: rest, a => if k = a then some v else lookupA rest a

/-- Go `delete(m, a)`. -/
def eraseA [DecidableEq κ] (m : List (κ × ν)) (a : κ) : List (κ × ν) :=
  m.filter (fun kv => !decide (kv.1 = a))

/-- Go `m[a] = v`. -/
def insertA [DecidableEq κ] (m : List (κ × ν)) (a : κ) (v : ν) : List (κ × ν) :=
  (a, v) :: eraseA m a

theorem eraseA_cons [DecidableEq κ] (k : κ) (v : ν) (rest : List (κ × ν)) (a : κ) :
    eraseA ((k, v) :: rest) a =
      if k = a then eraseA rest a else (k, v) :: eraseA rest a := by
  by_cases h : k = a <;> simp [eraseA, List.filter_cons, h]

theorem lookupA_eraseA_self [DecidableEq κ] (m : List (κ × ν)) (a : κ) :
    lookupA (eraseA m a) a = none := by
  induction m with
  | nil => rfl
  | cons kv rest ih =>
    obtain ⟨k, v⟩ := kv
    rw [eraseA_cons]
    by_cases h : k = a
    · simpa [h] using ih
    · simpa [lookupA, h] using ih

theorem lookupA_eraseA_ne [DecidableEq κ] (m : List (κ × ν)) (a b : κ) (h : b ≠ a) :
    lookupA (eraseA m a) b = lookupA m b := by
  induction m with
  | nil => rfl
  | cons kv rest ih =>
    obtain ⟨k, v⟩ := kv
    rw [eraseA_cons]
    by_cases hk : k = a
    · subst hk
      rw [if_pos rfl, ih]
      simp [lookupA, Ne.symm h]
    · rw [if_neg hk]
      by_cases hb : k = b <;> simp [lookupA, hb, ih]

@[simp] theorem lookupA_insertA_self [DecidableEq κ] (m : List (κ × ν)) (a : κ) (v : ν) :
    lookupA (insertA m a v) a = some v := by
  simp [insertA, lookupA]

theorem lookupA_insertA_ne [DecidableEq κ] (m : List (κ × ν)) (a b : κ) (v : ν) (h : b ≠ a) :
    lookupA (insertA m a v) b = lookupA m b := by
  rw [show lookupA (insertA m a v) b = lookupA (eraseA m a) b by
    simp [insertA, lookupA, Ne.symm h]]
  exact lookupA_eraseA_ne m a b h

/-! ## Base64 (`encoding/base64` StdEncoding, used by `encoding/json` for `[]byte`) -/

/-- Character of the standard base64 alphabet for a 6-bit group. -/
def sextetToChar (n : Nat) : Char :=
  if n < 26 then Char.ofNat (65 + n)
  else if n < 52 then Char.ofNat (71 + n)
  else if n < 62 then Char.ofNat (n - 4)
  else if n = 62 then Char.ofNat 43
  else Char.ofNat 47

/-- Inverse of the standard base64 alphabet; `none` for characters outside it. -/
def charToSextet (c : Char) : Option Nat :=
  let n := c.toNat
  if 65 ≤ n ∧ n ≤ 90 then some (n - 65)
  else if 97 ≤ n ∧ n ≤ 122 then some (n - 71)
  else if 48 ≤ n ∧ n ≤ 57 then some (n + 4)
  else if n = 43 then some 62
  else if n = 47 then some 63
  else none

theorem charToSextet_sextetToChar : ∀ n, n < 64 → charToSextet (sextetToChar n) = some n := by
  decide

theorem sextetToChar_ne_pad : ∀ n, n < 64 → sextetToChar n ≠ Char.ofNat 61 := by
  decide

/-- Base64 encoding of a byte list (bytes taken mod nothing: inputs are < 256),
three bytes to four characters, padded with `=` (`Char.ofNat 61`). -/
def b64EncodeList : List Nat → List Char
  | [] => []
  | [a] => [sextetToChar (a / 4), sextetToChar (a % 4 * 16), Char.ofNat 61, Char.ofNat 61]
  | [a, b] => [sextetToChar (a / 4), sextetToChar (a % 4 * 16 + b / 16),
      sextetToChar (b % 16 * 4), Char.ofNat 61]
  | a :: b :: c :: rest =>
      sextetToChar (a / 4) :: sextetToChar (a % 4 * 16 + b / 16) ::
      sextetToChar (b % 16 * 4 + c / 64) :: sextetToChar (c % 64) :: b64EncodeList rest

/-- Base64 decoding; like Go's (non-strict) decoder it does not insist on zero
trailing bits, requires padding only at the end of the input, and rejects
input whose length is not a multiple of four. -/
def b64DecodeList : List Char → Option (List Nat)
  | [] => some []
  | c1 :: c2 :: c3 :: c4 :: rest =>
    (charToSextet c1).bind fun s1 =>
    (charToSextet c2).bind fun s2 =>
    if c3 = Char.ofNat 61 then
      if c4 = Char.ofNat 61 ∧ rest = [] then some [s1 * 4 + s2 / 16] else none
    else
      (charToSextet c3).bind fun s3 =>
      if c4 = Char.ofNat 61 then
        if rest = [] then some [s1 * 4 + s2 / 16, s2 % 16 * 16 + s3 / 4] else none
      else
        (charToSextet c4).bind fun s4 =>
        (b64DecodeList rest).map fun ds =>
          (s1 * 4 + s2 / 16) :: (s2 % 16 * 16 + s3 / 4) :: (s3 % 4 * 64 + s4) :: ds
  | _ => none

theorem b64_roundtrip :
    ∀ l : List Nat, (∀ x ∈ l, x < 256) → b64DecodeList (b64EncodeList l) = some l
  | [], _ => rfl
  | [a], h => by
    have ha : a < 256 := h a (by simp)
    simp only [b64EncodeList, b64DecodeList,
      charToSextet_sextetToChar (a / 4) (by omega),
      charToSextet_sextetToChar (a % 4 * 16) (by omega),
      Option.some_bind, and_self, if_true, reduceIte, Option.some.injEq, List.cons.injEq,
      and_true]
    omega
  | [a, b], h => by
    have ha : a < 256 := h a (by simp)
    have hb : b < 256 := h b (by simp)
    simp only [b64EncodeList, b64DecodeList,
      charToSextet_sextetToChar (a / 4) (by omega),
      charToSextet_sextetToChar (a % 4 * 16 + b / 16) (by omega),
      charToSextet_sextetToChar (b % 16 * 4) (by omega),
      sextetToChar_ne_pad (b % 16 * 4) (by omega),
      Option.some_bind, if_false, reduceIte, Option.some.injEq, List.cons.injEq,
      and_true]
    omega
  | a :: b :: c :: rest, h => by
    have ha : a < 256 := h a (by simp)
    have hb : b < 256 := h b (by simp)
    have hc : c < 256 := h c (by simp)
    have ih := b64_roundtrip rest (fun x hx => h x (by simp [hx]))
    simp only [b64EncodeList, b64DecodeList,
      charToSextet_sextetToChar (a / 4) (by omega),
      charToSextet_sextetToChar (a % 4 * 16 + b / 16) (by omega),
      charToSextet_sextetToChar (b % 16 * 4 + c / 64) (by omega),
      charToSextet_sextetToChar (c % 64) (by omega),
      sextetToChar_ne_pad (b % 16 * 4 + c / 64) (by omega),
      sextetToChar_ne_pad (c % 64) (by omega),
      Option.some_bind, if_false, ih, Option.map_some', Option.some.injEq, List.cons.injEq,
      and_true]
    omega

/-! ## JSON values -/

/-- JSON value, the codomain of `encoding/json` marshalling.  Numbers are
restricted to integers; the envelope never marshals anything else. -/
inductive Json where
  | null
  | bool (b : Bool)
  | num (n : Int)
  | str (s : String)
  | arr (elems : List Json)
  | obj (fields : List (String × Json))

/-- Value of a key in a JSON object.  The last occurrence wins, matching
`encoding/json`, which assigns every occurrence in input order. -/
def jsonField (fields : List (String × Json)) (key : String) : Option Json :=
  lookupA fields.reverse key

/-! ## Tags and constants -/

/-- Modelled from the spec: `Tag` (defined outside src/) is an opaque
string identifying a message kind. -/
abbrev Tag := String

/-- InitID (worker.go:31), the ID for the first item in the handler list. -/
def InitID : Nat := 0

/-- Number of values of a Go `uint64`; `uint64` arithmetic is `Nat`
arithmetic mod this. -/
def uint64Card : Nat := 2 ^ 64

/-- workerInitialConnectionTimeout (worker.go:37), in seconds. -/
def workerInitialConnectionTimeout : Nat := 16

/-- ResponseTimeout (worker.go:41), in seconds. -/
def ResponseTimeout : Nat := 8

/-- Modelled from the spec: ReadyTag (defined outside src/) is the reserved
tag sent once by the worker after initialization; the concrete string is
irrelevant to every property proved here. -/
def ReadyTag : Tag := "Ready"

/-! ## The message envelope and its codec -/

/-- WorkerMessage (worker.go:73-77).  Go field names are Tag, ID, Data;
their JSON keys (from the struct tags) are "tag", "id", "data". -/
structure WorkerMessage where
  tag : Tag
  id : Nat
  data : List Nat
  deriving DecidableEq

/-- Marshalling of WorkerMessage by `json.Marshal` (worker.go:132), at the
JSON-value level: an object with the three keys in struct order; the
`[]byte` field marshals to the base64 string of its contents. -/
def marshalWorkerMessage (m : WorkerMessage) : Json :=
  .obj [("tag", .str m.tag), ("id", .num (m.id : Int)),
    ("data", .str (String.mk (b64EncodeList m.data)))]

/-- Unmarshalling of a JSON value into a WorkerMessage by `json.Unmarshal`
(worker.go:145), following the documented `encoding/json` struct rules:
the value must be an object; unknown keys are ignored; an absent key
leaves the field at its zero value; `null` leaves a field untouched (hence
also at its zero value); a present key of the wrong type is an error; a
number unmarshals into the `uint64` field only if it is an integer in
range. -/
def unmarshalTagField (fields : List (String × Json)) : Except String Tag :=
  match jsonField fields "tag" with
  | none => .ok ""
  | some .null => .ok ""
  | some (.str s) => .ok s
  | some _ => .error "json: cannot unmarshal value into field tag of type Tag"

/-- Decoding of the "id" key (a `uint64` field) of an inbound object. -/
def unmarshalIDField (fields : List (String × Json)) : Except String Nat :=
  match jsonField fields "id" with
  | none => .ok 0
  | some .null => .ok 0
  | some (.num n) =>
    if 0 ≤ n ∧ n < (uint64Card : Int) then .ok n.toNat
    else .error "json: cannot unmarshal number into field id of type uint64"
  | some _ => .error "json: cannot unmarshal value into field id of type uint64"

/-- Decoding of the "data" key (a `[]byte` field) of an inbound object. -/
def unmarshalDataField (fields : List (String × Json)) : Except String (List Nat) :=
  match jsonField fields "data" with
  | none => .ok []
  | some .null => .ok []
  | some (.str s) =>
    match b64DecodeList s.data with
    | some bytes => .ok bytes
    | none => .error "json: illegal base64 data at input field data"
  | some _ => .error "json: cannot unmarshal value into field data of type byte slice"

/-- Unmarshalling proper; see the rules in the section comment above. -/
def unmarshalWorkerMessage (j : Json) : Except String WorkerMessage :=
  match j with
  | .obj fields =>
    match unmarshalTagField fields, unmarshalIDField fields, unmarshalDataField fields with
    | .ok t, .ok i, .ok d => .ok { tag := t, id := i, data := d }
    | .error e, _, _ => .error e
    | _, .error e, _ => .error e
    | _, _, .error e => .error e
  | _ => .error "json: cannot unmarshal value into Go value of type WorkerMessage"

/-! ## The handler registry and its operations

Handler functions (Go `HandlerFn`) are opaque values of a type parameter
`H`; the registry never calls them, it only stores and retrieves them. -/

variable {H : Type}

/-- WorkerHandler (worker.go:48-69): the two registry maps and the debug
name.  The JS worker object is not represented; the mutex is not needed
because each modelled operation is exactly one of the code's critical
sections. -/
structure WorkerHandler (H : Type) where
  handlers : List (Tag × List (Nat × H))
  handlerIDs : List (Tag × Nat)
  name : String
  deriving DecidableEq

/-- getNextID (worker.go:214-222).  The Go `handlerIDs[tag]++` is a
`uint64` increment, hence the mod. -/
def getNextID (wh : WorkerHandler H) (tag : Tag) : Nat × WorkerHandler H :=
  let id := (lookupA wh.handlerIDs tag).getD InitID
  (id, { wh with handlerIDs := insertA wh.handlerIDs tag ((id + 1) % uint64Card) })

/-- RegisterHandler (worker.go:192-210). -/
def RegisterHandler (wh : WorkerHandler H) (tag : Tag) (id : Nat) (autoID : Bool)
    (handler : H) : Nat × WorkerHandler H :=
  let p := if autoID then getNextID wh tag else (id, wh)
  let inner := (lookupA p.2.handlers tag).getD []
  (p.1, { p.2 with handlers := insertA p.2.handlers tag (insertA inner p.1 handler) })

/-- Errors of getHandler: worker.go:170 ("no handlers found for tag") and
worker.go:175 ("no handler found for ID"). -/
inductive HandlerError where
  | handlerNotFound (tag : Tag)
  | idNotFound (tag : Tag) (id : Nat)
  deriving DecidableEq

/-- getHandler (worker.go:165-186).  `deleteAfterReceiving` (defined
outside src/) is the set of tags whose handlers are one-shot; it is kept
abstract as a predicate so that statements cover one-shot and persistent
tags alike. -/
def getHandler (deleteAfterReceiving : Tag → Bool) (wh : WorkerHandler H) (tag : Tag)
    (id : Nat) : Except HandlerError H × WorkerHandler H :=
  match lookupA wh.handlers tag with
  | none => (.error (.handlerNotFound tag), wh)
  | some handlers =>
    match lookupA handlers id with
    | none => (.error (.idNotFound tag id), wh)
    | some handler =>
      if deleteAfterReceiving tag then
        let inner := eraseA handlers id
        if inner.isEmpty then (.ok handler, { wh with handlers := eraseA wh.handlers tag })
        else (.ok handler, { wh with handlers := insertA wh.handlers tag inner })
      else (.ok handler, wh)

/-- SendMessage (worker.go:117-139).  Returns the registry state as it is
at the moment the marshalled message goes to `postMessage`, together with
the WorkerMessage that is marshalled and posted. -/
def SendMessage (wh : WorkerHandler H) (tag : Tag) (data : List Nat)
    (receptionHandler : Option H) : WorkerHandler H × WorkerMessage :=
  match receptionHandler with
  | some h =>
    let p := RegisterHandler wh tag 0 true h
    (p.2, { tag := tag, id := p.1, data := data })
  | none => (wh, { tag := tag, id := 0, data := data })

/-- Errors of receiveMessage: a json.Unmarshal failure (worker.go:145-148)
or a getHandler failure (worker.go:152-155). -/
inductive ReceiveError where
  | unmarshalFailure (msg : String)
  | routing (e : HandlerError)
  deriving DecidableEq

/-- receiveMessage (worker.go:143-160).  On success the code launches
`go handler(msg.Data)`; the launched pair is returned in the `.ok` value. -/
def receiveMessage (deleteAfterReceiving : Tag → Bool) (wh : WorkerHandler H)
    (frame : Json) : Except ReceiveError (H × List Nat) × WorkerHandler H :=
  match unmarshalWorkerMessage frame with
  | .error e => (.error (.unmarshalFailure e), wh)
  | .ok msg =>
    match getHandler deleteAfterReceiving wh msg.tag msg.id with
    | (.error e, wh2) => (.error (.routing e), wh2)
    | (.ok handler, wh2) => (.ok (handler, msg.data), wh2)

/-- Result of NewWorkerHandler: the returned handle (`none` models Go's
`nil`), whether the returned error is non-nil, and the registry state left
behind by the construction attempt. -/
structure NewWorkerResult (H : Type) where
  handle : Option (WorkerHandler H)
  err : Bool
  registry : WorkerHandler H
  deriving DecidableEq

/-- NewWorkerHandler (worker.go:81-112).  Real time is abstracted:
`readyArrival` is the instant (in seconds) at which the worker's ReadyTag
envelope fires the readiness handler, `none` if that never happens; the
`select` takes the ready branch exactly when that instant precedes
workerInitialConnectionTimeout. -/
def NewWorkerHandler (name : String) (readyHandler : H) (readyArrival : Option Nat) :
    NewWorkerResult H :=
  let wh0 : WorkerHandler H := { handlers := [], handlerIDs := [], name := name }
  let wh := (RegisterHandler wh0 ReadyTag InitID false readyHandler).2
  match readyArrival with
  | some t =>
    if t < workerInitialConnectionTimeout then
      { handle := some wh, err := false, registry := wh }
    else { handle := none, err := true, registry := wh }
  | none => { handle := none, err := true, registry := wh }

/-- Registry read used in statements: the handler stored at (tag, id). -/
def lookupHandler (wh : WorkerHandler H) (tag : Tag) (id : Nat) : Option H :=
  (lookupA wh.handlers tag).bind fun inner => lookupA inner id

/-! ## Operation sequences (for stating multi-step properties) -/

/-- One registry-mutating call: a RegisterHandler call or the getHandler
lookup performed for an inbound envelope. -/
inductive WorkerOp (H : Type) where
  | register (tag : Tag) (id : Nat) (autoID : Bool) (handler : H)
  | deliver (tag : Tag) (id : Nat)

/-- State after one operation. -/
def applyOp (deleteAfterReceiving : Tag → Bool) (wh : WorkerHandler H) :
    WorkerOp H → WorkerHandler H
  | .register t i auto h => (RegisterHandler wh t i auto h).2
  | .deliver t i => (getHandler deleteAfterReceiving wh t i).2

/-- The IDs returned by the auto-allocating RegisterHandler calls for tag
`t` while running `ops` from `wh`, in call order. -/
def autoIDs (deleteAfterReceiving : Tag → Bool) (t : Tag) :
    List (WorkerOp H) → WorkerHandler H → List Nat
  | [], _ => []
  | op :: rest, wh =>
    let tail := autoIDs deleteAfterReceiving t rest (applyOp deleteAfterReceiving wh op)
    match op with
    | .register t2 i true h =>
      if t2 = t then (RegisterHandler wh t2 i true h).1 :: tail else tail
    | _ => tail

/-- Number of auto-allocating RegisterHandler calls for `t` in `ops`. -/
def countAuto (t : Tag) : List (WorkerOp H) → Nat
  | [] => 0
  | .register t2 _ true _ :: rest => (if t2 = t then 1 else 0) + countAuto t rest
  | _ :: rest => countAuto t rest

/-- Value the next auto-allocated ID for `t` would take in state `wh`. -/
def nextIDOf (wh : WorkerHandler H) (t : Tag) : Nat :=
  (lookupA wh.handlerIDs t).getD InitID

/-! ## Supporting lemmas -/

theorem jsonField_envelope_tag (a b c : Json) :
    jsonField [("tag", a), ("id", b), ("data", c)] "tag" = some a := by
  simp [jsonField, lookupA]

theorem jsonField_envelope_id (a b c : Json) :
    jsonField [("tag", a), ("id", b), ("data", c)] "id" = some b := by
  simp [jsonField, lookupA]

theorem jsonField_envelope_data (a b c : Json) :
    jsonField [("tag", a), ("id", b), ("data", c)] "data" = some c := by
  simp [jsonField, lookupA]

theorem string_data_mk (l : List Char) : (String.mk l).data = l := rfl

theorem unmarshalTagField_envelope (t : Tag) (b c : Json) :
    unmarshalTagField [("tag", .str t), ("id", b), ("data", c)] = .ok t := by
  rw [unmarshalTagField, jsonField_envelope_tag]

theorem unmarshalIDField_envelope (a c : Json) (i : Nat) (h : i < uint64Card) :
    unmarshalIDField [("tag", a), ("id", .num (i : Int)), ("data", c)] = .ok i := by
  rw [unmarshalIDField, jsonField_envelope_id]
  have h0 : (0 : Int) ≤ (i : Int) := Int.ofNat_nonneg i
  have h1 : (i : Int) < (uint64Card : Int) := by exact_mod_cast h
  simp [h0, h1]

theorem unmarshalDataField_envelope (a b : Json) (d : List Nat) (h : ∀ x ∈ d, x < 256) :
    unmarshalDataField [("tag", a), ("id", b), ("data", .str (String.mk (b64EncodeList d)))]
      = .ok d := by
  rw [unmarshalDataField, jsonField_envelope_data]
  simp [string_data_mk, b64_roundtrip d h]

/-! ## Claim C1 -/

/-- C1: for every valid tag, id and payload, unmarshalling the JSON value
that SendMessage's `json.Marshal` produces for `WorkerMessage p tag id data`
via receiveMessage's `json.Unmarshal` returns exactly the same WorkerMessage.
Valid means: the id fits in a `uint64` and every payload byte is a byte. -/
theorem unmarshal_marshal_roundtrip (m : WorkerMessage)
    (hid : m.id < uint64Card) (hdata : ∀ x ∈ m.data, x < 256) :
    unmarshalWorkerMessage (marshalWorkerMessage m) = .ok m := by
  obtain ⟨t, i, d⟩ := m
  rw [marshalWorkerMessage, unmarshalWorkerMessage]
  rw [unmarshalTagField_envelope, unmarshalIDField_envelope _ _ _ hid,
    unmarshalDataField_envelope _ _ _ hdata]

theorem unmarshal_marshal_roundtrip_witness :
    (5 : Nat) < uint64Card ∧ (∀ x ∈ [0, 127, 255], x < 256)
    ∧ unmarshalWorkerMessage
        (marshalWorkerMessage { tag := "msg", id := 5, data := [0, 127, 255] })
      = .ok { tag := "msg", id := 5, data := [0, 127, 255] } :=
  ⟨by decide, by decide,
    unmarshal_marshal_roundtrip { tag := "msg", id := 5, data := [0, 127, 255] }
      (by decide) (by decide)⟩

/-! ## Registry lemmas -/

theorem RegisterHandler_false_eq (wh : WorkerHandler H) (t : Tag) (i : Nat) (f : H) :
    RegisterHandler wh t i false f
      = (i,
          { wh with
              handlers := insertA wh.handlers t
                  (insertA ((lookupA wh.handlers t).getD []) i f) }) := rfl

theorem RegisterHandler_true_eq (wh : WorkerHandler H) (t : Tag) (i : Nat) (f : H) :
    RegisterHandler wh t i true f
      = (nextIDOf wh t,
          { wh with
              handlerIDs := insertA wh.handlerIDs t ((nextIDOf wh t + 1) % uint64Card),
              handlers := insertA wh.handlers t
                  (insertA ((lookupA wh.handlers t).getD []) (nextIDOf wh t) f) }) := rfl

/-! ## Claim C5 -/

/-- C5: RegisterHandler with an explicit ID (autoID = false) stores the
handler at (tag, id), silently replacing whatever was stored at that exact
slot, and returns the given id; RegisterHandler with autoID = true ignores
the supplied id, returns the current per-tag counter value, increments the
counter (as a uint64), and stores the handler under the returned ID. -/
theorem RegisterHandler_semantics (wh : WorkerHandler H) (t : Tag) (i : Nat) (f : H) :
    ((RegisterHandler wh t i false f).1 = i
      ∧ lookupHandler (RegisterHandler wh t i false f).2 t i = some f)
    ∧ ((RegisterHandler wh t i true f).1 = nextIDOf wh t
      ∧ nextIDOf (RegisterHandler wh t i true f).2 t = (nextIDOf wh t + 1) % uint64Card
      ∧ lookupHandler (RegisterHandler wh t i true f).2 t (nextIDOf wh t) = some f
      ∧ ∀ j : Nat, RegisterHandler wh t i true f = RegisterHandler wh t j true f) := by
  refine ⟨⟨rfl, ?_⟩, rfl, ?_, ?_, fun j => rfl⟩
  · simp [RegisterHandler_false_eq, lookupHandler]
  · simp [RegisterHandler_true_eq, nextIDOf]
  · simp [RegisterHandler_true_eq, lookupHandler]

/-! ## Claim C6 -/

/-- C6: getHandler fails with the tag-level error ("no handlers found for
tag") exactly when no handler map exists for the tag, fails with the
id-level error ("no handler found for ID") exactly when the tag map exists
but has no entry for the id, and in every failure case leaves the registry
state unchanged. -/
theorem getHandler_failure_characterization (deleteAfterReceiving : Tag → Bool)
    (wh : WorkerHandler H) (t : Tag) (i : Nat) :
    ((getHandler deleteAfterReceiving wh t i).1 = .error (.handlerNotFound t)
      ↔ lookupA wh.handlers t = none)
    ∧ ((getHandler deleteAfterReceiving wh t i).1 = .error (.idNotFound t i)
      ↔ ∃ hs, lookupA wh.handlers t = some hs ∧ lookupA hs i = none)
    ∧ ∀ e, (getHandler deleteAfterReceiving wh t i).1 = .error e
      → (getHandler deleteAfterReceiving wh t i).2 = wh := by
  cases h1 : lookupA wh.handlers t with
  | none => simp [getHandler, h1]
  | some hs =>
    cases h2 : lookupA hs i with
    | none => simp [getHandler, h1, h2]
    | some f =>
      by_cases hdel : deleteAfterReceiving t
      · by_cases he : (eraseA hs i).isEmpty <;>
          simp [getHandler, h1, h2, hdel, he]
      · simp [getHandler, h1, h2, hdel]

theorem getHandler_failure_characterization_witness :
    ((getHandler (fun _ => true)
        ({ handlers := [("A", [(0, 3)])], handlerIDs := [], name := "w" } : WorkerHandler Nat)
        "B" 7).1 = .error (.handlerNotFound "B")
      ↔ lookupA ({ handlers := [("A", [(0, 3)])], handlerIDs := [], name := "w" }
          : WorkerHandler Nat).handlers "B" = none)
    ∧ ((getHandler (fun _ => true)
        ({ handlers := [("A", [(0, 3)])], handlerIDs := [], name := "w" } : WorkerHandler Nat)
        "B" 7).1 = .error (.idNotFound "B" 7)
      ↔ ∃ hs, lookupA ({ handlers := [("A", [(0, 3)])], handlerIDs := [], name := "w" }
          : WorkerHandler Nat).handlers "B" = some hs ∧ lookupA hs 7 = none)
    ∧ ∀ e, (getHandler (fun _ => true)
        ({ handlers := [("A", [(0, 3)])], handlerIDs := [], name := "w" } : WorkerHandler Nat)
        "B" 7).1 = .error e
      → (getHandler (fun _ => true)
        ({ handlers := [("A", [(0, 3)])], handlerIDs := [], name := "w" } : WorkerHandler Nat)
        "B" 7).2
        = { handlers := [("A", [(0, 3)])], handlerIDs := [], name := "w" } :=
  getHandler_failure_characterization (fun _ => true)
    { handlers := [("A", [(0, 3)])], handlerIDs := [], name := "w" } "B" 7

/-! ## Claim C2 -/

theorem getHandler_handlerIDs (deleteAfterReceiving : Tag → Bool) (wh : WorkerHandler H)
    (t : Tag) (i : Nat) :
    ((getHandler deleteAfterReceiving wh t i).2).handlerIDs = wh.handlerIDs := by
  cases h1 : lookupA wh.handlers t with
  | none => simp [getHandler, h1]
  | some hs =>
    cases h2 : lookupA hs i with
    | none => simp [getHandler, h1, h2]
    | some f =>
      by_cases hdel : deleteAfterReceiving t
      · by_cases he : (eraseA hs i).isEmpty <;> simp [getHandler, h1, h2, hdel, he]
      · simp [getHandler, h1, h2, hdel]

theorem autoIDs_eq_range (deleteAfterReceiving : Tag → Bool) (t : Tag) :
    ∀ (ops : List (WorkerOp H)) (wh : WorkerHandler H),
      nextIDOf wh t + countAuto t ops ≤ uint64Card →
      autoIDs deleteAfterReceiving t ops wh
        = List.range' (nextIDOf wh t) (countAuto t ops)
  | [], _, _ => rfl
  | .register t2 i true f :: rest, wh, hov => by
    by_cases ht : t2 = t
    · subst t2
      have hcnt : countAuto t (WorkerOp.register t i true f :: rest)
          = 1 + countAuto t rest := by simp [countAuto]
      rw [hcnt] at hov ⊢
      have hnext :
          nextIDOf (applyOp deleteAfterReceiving wh (WorkerOp.register t i true f)) t
            = (nextIDOf wh t + 1) % uint64Card := by
        simp [applyOp, RegisterHandler_true_eq, nextIDOf]
      rw [show autoIDs deleteAfterReceiving t (WorkerOp.register t i true f :: rest) wh
            = (RegisterHandler wh t i true f).1
              :: autoIDs deleteAfterReceiving t rest
                  (applyOp deleteAfterReceiving wh (WorkerOp.register t i true f)) by
        simp [autoIDs]]
      rcases Nat.lt_or_ge (nextIDOf wh t + 1) uint64Card with hlt | hge
      · have hmod : (nextIDOf wh t + 1) % uint64Card = nextIDOf wh t + 1 :=
          Nat.mod_eq_of_lt hlt
        have ih := autoIDs_eq_range deleteAfterReceiving t rest
          (applyOp deleteAfterReceiving wh (WorkerOp.register t i true f))
          (by rw [hnext, hmod]; omega)
        rw [ih, hnext, hmod]
        rw [show (RegisterHandler wh t i true f).1 = nextIDOf wh t from rfl]
        rw [Nat.add_comm 1 (countAuto t rest)]
        rfl
      · have heq : nextIDOf wh t + 1 = uint64Card := by omega
        have hk : countAuto t rest = 0 := by omega
        have hmod : (nextIDOf wh t + 1) % uint64Card = 0 := by
          rw [heq]
          exact Nat.mod_self _
        have ih := autoIDs_eq_range deleteAfterReceiving t rest
          (applyOp deleteAfterReceiving wh (WorkerOp.register t i true f))
          (by rw [hnext, hmod, hk]; omega)
        rw [ih, hnext, hmod, hk]
        rw [show (RegisterHandler wh t i true f).1 = nextIDOf wh t from rfl]
        rfl
    · have hcnt : countAuto t (WorkerOp.register t2 i true f :: rest)
          = countAuto t rest := by simp [countAuto, ht]
      rw [hcnt] at hov ⊢
      have hnext :
          nextIDOf (applyOp deleteAfterReceiving wh (WorkerOp.register t2 i true f)) t
            = nextIDOf wh t := by
        simp [applyOp, RegisterHandler_true_eq, nextIDOf,
          lookupA_insertA_ne _ _ _ _ (Ne.symm ht)]
      have ih := autoIDs_eq_range deleteAfterReceiving t rest
        (applyOp deleteAfterReceiving wh (WorkerOp.register t2 i true f))
        (by rw [hnext]; omega)
      rw [show autoIDs deleteAfterReceiving t (WorkerOp.register t2 i true f :: rest) wh
            = autoIDs deleteAfterReceiving t rest
                (applyOp deleteAfterReceiving wh (WorkerOp.register t2 i true f)) by
        simp [autoIDs, ht]]
      rw [ih, hnext]
  | .register t2 i false f :: rest, wh, hov => by
    have hcnt : countAuto t (WorkerOp.register t2 i false f :: rest)
        = countAuto t rest := rfl
    rw [hcnt] at hov ⊢
    have hnext :
        nextIDOf (applyOp deleteAfterReceiving wh (WorkerOp.register t2 i false f)) t
          = nextIDOf wh t := rfl
    have ih := autoIDs_eq_range deleteAfterReceiving t rest
      (applyOp deleteAfterReceiving wh (WorkerOp.register t2 i false f))
      (by rw [hnext]; omega)
    rw [show autoIDs deleteAfterReceiving t (WorkerOp.register t2 i false f :: rest) wh
          = autoIDs deleteAfterReceiving t rest
              (applyOp deleteAfterReceiving wh (WorkerOp.register t2 i false f)) by
      simp [autoIDs]]
    rw [ih, hnext]
  | .deliver t2 i :: rest, wh, hov => by
    have hcnt : countAuto t (WorkerOp.deliver t2 i :: rest) = countAuto t rest := rfl
    rw [hcnt] at hov ⊢
    have hnext :
        nextIDOf (applyOp deleteAfterReceiving wh (WorkerOp.deliver t2 i)) t
          = nextIDOf wh t := by
      simp [applyOp, nextIDOf, getHandler_handlerIDs]
    have ih := autoIDs_eq_range deleteAfterReceiving t rest
      (applyOp deleteAfterReceiving wh (WorkerOp.deliver t2 i))
      (by rw [hnext]; omega)
    rw [show autoIDs deleteAfterReceiving t (WorkerOp.deliver t2 i :: rest) wh
          = autoIDs deleteAfterReceiving t rest
              (applyOp deleteAfterReceiving wh (WorkerOp.deliver t2 i)) by
      simp [autoIDs]]
    rw [ih, hnext]

/-- C2: for every tag, the correlation IDs handed out by any sequence of
auto-allocating RegisterHandler calls (autoID = true) are strictly
increasing, even across interleaved getHandler deliveries that remove
handler entries, provided the per-tag uint64 counter does not wrap (the
counter value plus the number of allocations stays within 2^64); in
particular handlerIDs[tag] only increases during such a sequence and a
consumed ID is never returned again for that tag. -/
theorem autoIDs_strictly_increasing (deleteAfterReceiving : Tag → Bool) (t : Tag)
    (ops : List (WorkerOp H)) (wh : WorkerHandler H)
    (hov : nextIDOf wh t + countAuto t ops ≤ uint64Card) :
    (autoIDs deleteAfterReceiving t ops wh).Pairwise (· < ·) := by
  rw [autoIDs_eq_range deleteAfterReceiving t ops wh hov]
  exact List.pairwise_lt_range' _ _

theorem autoIDs_strictly_increasing_witness :
    (nextIDOf ({ handlers := [], handlerIDs := [], name := "w" } : WorkerHandler Nat) "a"
        + countAuto "a"
            [WorkerOp.register "a" 0 true 10, WorkerOp.deliver "a" 0,
              WorkerOp.register "a" 9 true 11]
      ≤ uint64Card)
    ∧ (autoIDs (fun _ => true) "a"
        [WorkerOp.register "a" 0 true 10, WorkerOp.deliver "a" 0,
          WorkerOp.register "a" 9 true 11]
        { handlers := [], handlerIDs := [], name := "w" }).Pairwise (· < ·) :=
  ⟨by decide,
    autoIDs_strictly_increasing (fun _ => true) "a"
      [WorkerOp.register "a" 0 true 10, WorkerOp.deliver "a" 0,
        WorkerOp.register "a" 9 true 11]
      { handlers := [], handlerIDs := [], name := "w" } (by decide)⟩

/-! ## Lookup and removal lemmas -/

theorem lookupHandler_of_getHandler_ok (deleteAfterReceiving : Tag → Bool)
    (wh wh1 : WorkerHandler H) (t : Tag) (i : Nat) (f : H)
    (hget : getHandler deleteAfterReceiving wh t i = (.ok f, wh1)) :
    lookupHandler wh t i = some f := by
  cases h1 : lookupA wh.handlers t with
  | none => simp [getHandler, h1] at hget
  | some hs =>
    cases h2 : lookupA hs i with
    | none => simp [getHandler, h1, h2] at hget
    | some g =>
      have hgf : g = f := by
        by_cases hdel : deleteAfterReceiving t = true
        · by_cases he : (eraseA hs i).isEmpty <;>
            · simp [getHandler, h1, h2, hdel, he, Prod.ext_iff] at hget
              exact hget.1
        · have hdelf : deleteAfterReceiving t = false := by
            cases hb : deleteAfterReceiving t
            · rfl
            · exact absurd hb hdel
          simp [getHandler, h1, h2, hdelf, Prod.ext_iff] at hget
          exact hget.1
      subst g
      simp [lookupHandler, h1, h2]

theorem getHandler_ok_spec (deleteAfterReceiving : Tag → Bool) (wh : WorkerHandler H)
    (t : Tag) (i : Nat) (f : H) (hf : lookupHandler wh t i = some f) :
    (getHandler deleteAfterReceiving wh t i).1 = .ok f
    ∧ (deleteAfterReceiving t = true →
        lookupHandler (getHandler deleteAfterReceiving wh t i).2 t i = none)
    ∧ (deleteAfterReceiving t = false →
        (getHandler deleteAfterReceiving wh t i).2 = wh) := by
  cases h1 : lookupA wh.handlers t with
  | none => simp [lookupHandler, h1] at hf
  | some hs =>
    cases h2 : lookupA hs i with
    | none => simp [lookupHandler, h1, h2] at hf
    | some g =>
      have hgf : g = f := by simpa [lookupHandler, h1, h2] using hf
      subst g
      by_cases hdel : deleteAfterReceiving t = true
      · by_cases he : (eraseA hs i).isEmpty
        · refine ⟨by simp [getHandler, h1, h2, hdel, he], fun _ => ?_, fun hc => ?_⟩
          · simp [getHandler, h1, h2, hdel, he, lookupHandler, lookupA_eraseA_self]
          · rw [hdel] at hc
            exact absurd hc (by simp)
        · refine ⟨by simp [getHandler, h1, h2, hdel, he], fun _ => ?_, fun hc => ?_⟩
          · simp [getHandler, h1, h2, hdel, he, lookupHandler, lookupA_insertA_self,
              lookupA_eraseA_self]
          · rw [hdel] at hc
            exact absurd hc (by simp)
      · have hdelf : deleteAfterReceiving t = false := by
          cases hb : deleteAfterReceiving t
          · rfl
          · exact absurd hb hdel
        exact ⟨by simp [getHandler, h1, h2, hdelf], fun hc => absurd hc (by simp [hdelf]),
          fun _ => by simp [getHandler, h1, h2, hdelf]⟩

theorem getHandler_error_of_lookupHandler_none (deleteAfterReceiving : Tag → Bool)
    (wh : WorkerHandler H) (t : Tag) (i : Nat) (h : lookupHandler wh t i = none) :
    getHandler deleteAfterReceiving wh t i = (.error (.handlerNotFound t), wh)
    ∨ getHandler deleteAfterReceiving wh t i = (.error (.idNotFound t i), wh) := by
  cases h1 : lookupA wh.handlers t with
  | none =>
    left
    simp [getHandler, h1]
  | some hs =>
    cases h2 : lookupA hs i with
    | none =>
      right
      simp [getHandler, h1, h2]
    | some g => simp [lookupHandler, h1, h2] at h

/-! ## Claim C3 -/

/-- C3: after a handler of a one-shot tag has been looked up once for an
inbound (tag, id) — the lookup removes it before the handler is invoked —
the lookup for a second inbound envelope with the same (tag, id) fails with
the handler-not-found or ID-not-found error instead of returning the
handler again (and leaves the registry unchanged); for a tag not marked
one-shot the handler stays registered and a second lookup returns it
again. -/
theorem getHandler_one_shot (deleteAfterReceiving : Tag → Bool)
    (wh wh1 : WorkerHandler H) (t : Tag) (i : Nat) (f : H)
    (hget : getHandler deleteAfterReceiving wh t i = (.ok f, wh1)) :
    (deleteAfterReceiving t = true →
      getHandler deleteAfterReceiving wh1 t i = (.error (.handlerNotFound t), wh1)
      ∨ getHandler deleteAfterReceiving wh1 t i = (.error (.idNotFound t i), wh1))
    ∧ (deleteAfterReceiving t = false →
      wh1 = wh ∧ getHandler deleteAfterReceiving wh1 t i = (.ok f, wh1)) := by
  have hf := lookupHandler_of_getHandler_ok deleteAfterReceiving wh wh1 t i f hget
  have hspec := getHandler_ok_spec deleteAfterReceiving wh t i f hf
  constructor
  · intro hdel
    have hnone := hspec.2.1 hdel
    rw [hget] at hnone
    exact getHandler_error_of_lookupHandler_none deleteAfterReceiving wh1 t i hnone
  · intro hdelf
    have hwh := hspec.2.2 hdelf
    rw [hget] at hwh
    have hwh2 : wh1 = wh := hwh
    subst wh1
    exact ⟨rfl, hget⟩

theorem getHandler_one_shot_witness :
    ((fun _ => true) "A" = true →
      getHandler (fun _ => true)
          ({ handlers := [], handlerIDs := [], name := "w" } : WorkerHandler Nat) "A" 0
        = (.error (.handlerNotFound "A"), { handlers := [], handlerIDs := [], name := "w" })
      ∨ getHandler (fun _ => true)
          ({ handlers := [], handlerIDs := [], name := "w" } : WorkerHandler Nat) "A" 0
        = (.error (.idNotFound "A" 0), { handlers := [], handlerIDs := [], name := "w" }))
    ∧ ((fun _ => true) "A" = false →
      ({ handlers := [], handlerIDs := [], name := "w" } : WorkerHandler Nat)
          = { handlers := [("A", [(0, 7)])], handlerIDs := [], name := "w" }
      ∧ getHandler (fun _ => true)
          ({ handlers := [], handlerIDs := [], name := "w" } : WorkerHandler Nat) "A" 0
        = (.ok 7, { handlers := [], handlerIDs := [], name := "w" })) :=
  getHandler_one_shot (fun _ => true)
    { handlers := [("A", [(0, 7)])], handlerIDs := [], name := "w" }
    { handlers := [], handlerIDs := [], name := "w" } "A" 0 7 (by rfl)

/-! ## Claim C4 -/

/-- C4: SendMessage with a non-nil reception handler registers the handler
under an auto-allocated ID in the registry state that is current when the
envelope goes to postMessage, and the posted envelope carries exactly that
auto-allocated ID together with the given tag and payload, so no
well-formed reply (processed only after the envelope is posted) can arrive
before its handler exists; for a one-shot tag a single delivery consumes
the registration. -/
theorem SendMessage_registers_reply_first (deleteAfterReceiving : Tag → Bool)
    (wh : WorkerHandler H) (t : Tag) (d : List Nat) (f : H)
    (hdel : deleteAfterReceiving t = true) :
    (SendMessage wh t d (some f)).2.tag = t
    ∧ (SendMessage wh t d (some f)).2.data = d
    ∧ (SendMessage wh t d (some f)).2.id = nextIDOf wh t
    ∧ lookupHandler (SendMessage wh t d (some f)).1 t ((SendMessage wh t d (some f)).2.id)
        = some f
    ∧ (getHandler deleteAfterReceiving (SendMessage wh t d (some f)).1 t
        ((SendMessage wh t d (some f)).2.id)).1 = .ok f
    ∧ lookupHandler
        (getHandler deleteAfterReceiving (SendMessage wh t d (some f)).1 t
          ((SendMessage wh t d (some f)).2.id)).2 t ((SendMessage wh t d (some f)).2.id)
        = none := by
  have hreg : lookupHandler (SendMessage wh t d (some f)).1 t
      ((SendMessage wh t d (some f)).2.id) = some f := by
    show lookupHandler (RegisterHandler wh t 0 true f).2 t ((RegisterHandler wh t 0 true f).1)
      = some f
    simp [RegisterHandler_true_eq, lookupHandler]
  have hspec := getHandler_ok_spec deleteAfterReceiving (SendMessage wh t d (some f)).1 t
    ((SendMessage wh t d (some f)).2.id) f hreg
  exact ⟨rfl, rfl, rfl, hreg, hspec.1, hspec.2.1 hdel⟩

theorem SendMessage_registers_reply_first_witness :
    (SendMessage ({ handlers := [], handlerIDs := [], name := "w" } : WorkerHandler Nat)
        "A" [1, 2] (some 7)).2.tag = "A"
    ∧ (SendMessage ({ handlers := [], handlerIDs := [], name := "w" } : WorkerHandler Nat)
        "A" [1, 2] (some 7)).2.data = [1, 2]
    ∧ (SendMessage ({ handlers := [], handlerIDs := [], name := "w" } : WorkerHandler Nat)
        "A" [1, 2] (some 7)).2.id
      = nextIDOf ({ handlers := [], handlerIDs := [], name := "w" } : WorkerHandler Nat) "A"
    ∧ lookupHandler
        (SendMessage ({ handlers := [], handlerIDs := [], name := "w" } : WorkerHandler Nat)
          "A" [1, 2] (some 7)).1 "A"
        ((SendMessage ({ handlers := [], handlerIDs := [], name := "w" } : WorkerHandler Nat)
          "A" [1, 2] (some 7)).2.id)
      = some 7
    ∧ (getHandler (fun _ => true)
        (SendMessage ({ handlers := [], handlerIDs := [], name := "w" } : WorkerHandler Nat)
          "A" [1, 2] (some 7)).1 "A"
        ((SendMessage ({ handlers := [], handlerIDs := [], name := "w" } : WorkerHandler Nat)
          "A" [1, 2] (some 7)).2.id)).1 = .ok 7
    ∧ lookupHandler
        (getHandler (fun _ => true)
          (SendMessage ({ handlers := [], handlerIDs := [], name := "w" } : WorkerHandler Nat)
            "A" [1, 2] (some 7)).1 "A"
          ((SendMessage ({ handlers := [], handlerIDs := [], name := "w" } : WorkerHandler Nat)
            "A" [1, 2] (some 7)).2.id)).2 "A"
        ((SendMessage ({ handlers := [], handlerIDs := [], name := "w" } : WorkerHandler Nat)
          "A" [1, 2] (some 7)).2.id)
      = none :=
  SendMessage_registers_reply_first (fun _ => true)
    { handlers := [], handlerIDs := [], name := "w" } "A" [1, 2] 7 (by decide)

/-! ## Claim C7 -/

/-- C7 counterexample: when the ready envelope never arrives,
NewWorkerHandler does return a nil handle and a non-nil error, but the
readiness handler registered at (ReadyTag, InitID) is still present in the
registry left behind by the failed construction — nothing in the code
removes it, contrary to the claim that no handler remains registered. -/
theorem NewWorkerHandler_timeout_counterexample :
    (NewWorkerHandler "w" (37 : Nat) none).err = true
    ∧ (NewWorkerHandler "w" (37 : Nat) none).handle = none
    ∧ lookupHandler (NewWorkerHandler "w" (37 : Nat) none).registry ReadyTag InitID
        = some 37 := ⟨rfl, rfl, rfl⟩

/-- C7 amended: if no ReadyTag envelope arrives before the fixed 16-second
timeout elapses, NewWorkerHandler fails, returning a nil handle and a
non-nil error; the readiness handler registered at (ReadyTag, InitID) is
not removed — it remains in the registry, which is discarded together with
the failed handle rather than reused. -/
theorem NewWorkerHandler_timeout (readyHandler : H) (name : String)
    (readyArrival : Option Nat)
    (hlate : ∀ t0, readyArrival = some t0 → workerInitialConnectionTimeout ≤ t0) :
    workerInitialConnectionTimeout = 16
    ∧ (NewWorkerHandler name readyHandler readyArrival).err = true
    ∧ (NewWorkerHandler name readyHandler readyArrival).handle = none
    ∧ lookupHandler (NewWorkerHandler name readyHandler readyArrival).registry
        ReadyTag InitID = some readyHandler := by
  cases readyArrival with
  | none =>
    refine ⟨rfl, rfl, rfl, ?_⟩
    simp [NewWorkerHandler, RegisterHandler_false_eq, lookupHandler]
  | some t0 =>
    have h16 := hlate t0 rfl
    have hnlt : ¬(t0 < workerInitialConnectionTimeout) := by omega
    refine ⟨rfl, ?_, ?_, ?_⟩ <;>
      simp [NewWorkerHandler, hnlt, RegisterHandler_false_eq, lookupHandler]

theorem NewWorkerHandler_timeout_witness :
    (∀ t0 : Nat, (none : Option Nat) = some t0 → workerInitialConnectionTimeout ≤ t0)
    ∧ (workerInitialConnectionTimeout = 16
      ∧ (NewWorkerHandler "w" (5 : Nat) none).err = true
      ∧ (NewWorkerHandler "w" (5 : Nat) none).handle = none
      ∧ lookupHandler (NewWorkerHandler "w" (5 : Nat) none).registry ReadyTag InitID
          = some 5) :=
  ⟨(fun _ h => nomatch h), NewWorkerHandler_timeout 5 "w" none (fun _ h => nomatch h)⟩

/-! ## Claim C8 -/

/-- C8 counterexample: a frame lacking the "data" field is not a decode
failure — json.Unmarshal leaves the absent field at its zero value — and
receiveMessage returns no error and launches the registered handler on
such a frame, contrary to the claim that it returns an error and invokes
no handler. -/
theorem receiveMessage_missing_field_counterexample :
    unmarshalWorkerMessage (.obj [("tag", .str "A"), ("id", .num 0)])
      = .ok { tag := "A", id := 0, data := [] }
    ∧ (receiveMessage (fun _ => false)
        ({ handlers := [("A", [(0, 5)])], handlerIDs := [], name := "w" } : WorkerHandler Nat)
        (.obj [("tag", .str "A"), ("id", .num 0)])).1
      = .ok (5, []) := ⟨rfl, rfl⟩

theorem jsonField_idData_tag (b c : Json) :
    jsonField [("id", b), ("data", c)] "tag" = none := by
  simp [jsonField, lookupA]

theorem jsonField_idData_id (b c : Json) :
    jsonField [("id", b), ("data", c)] "id" = some b := by
  simp [jsonField, lookupA]

theorem jsonField_idData_data (b c : Json) :
    jsonField [("id", b), ("data", c)] "data" = some c := by
  simp [jsonField, lookupA]

theorem jsonField_tagData_tag (a c : Json) :
    jsonField [("tag", a), ("data", c)] "tag" = some a := by
  simp [jsonField, lookupA]

theorem jsonField_tagData_id (a c : Json) :
    jsonField [("tag", a), ("data", c)] "id" = none := by
  simp [jsonField, lookupA]

theorem jsonField_tagData_data (a c : Json) :
    jsonField [("tag", a), ("data", c)] "data" = some c := by
  simp [jsonField, lookupA]

theorem jsonField_tagID_tag (a b : Json) :
    jsonField [("tag", a), ("id", b)] "tag" = some a := by
  simp [jsonField, lookupA]

theorem jsonField_tagID_id (a b : Json) :
    jsonField [("tag", a), ("id", b)] "id" = some b := by
  simp [jsonField, lookupA]

theorem jsonField_tagID_data (a b : Json) :
    jsonField [("tag", a), ("id", b)] "data" = none := by
  simp [jsonField, lookupA]

theorem unmarshalWorkerMessage_obj_ok (fields : List (String × Json)) (t : Tag) (i : Nat)
    (d : List Nat) (h1 : unmarshalTagField fields = .ok t)
    (h2 : unmarshalIDField fields = .ok i) (h3 : unmarshalDataField fields = .ok d) :
    unmarshalWorkerMessage (.obj fields) = .ok { tag := t, id := i, data := d } := by
  rw [unmarshalWorkerMessage, h1, h2, h3]

theorem unmarshalIDField_num (fs : List (String × Json)) (i : Nat) (h : i < uint64Card)
    (hj : jsonField fs "id" = some (.num (i : Int))) :
    unmarshalIDField fs = .ok i := by
  rw [unmarshalIDField, hj]
  have h0 : (0 : Int) ≤ (i : Int) := Int.ofNat_nonneg i
  have h1 : (i : Int) < (uint64Card : Int) := by exact_mod_cast h
  simp [h0, h1]

theorem unmarshalDataField_b64 (fs : List (String × Json)) (d : List Nat)
    (h : ∀ x ∈ d, x < 256)
    (hj : jsonField fs "data" = some (.str (String.mk (b64EncodeList d)))) :
    unmarshalDataField fs = .ok d := by
  rw [unmarshalDataField, hj]
  simp [string_data_mk, b64_roundtrip d h]

theorem receiveMessage_decoded (deleteAfterReceiving : Tag → Bool) (wh : WorkerHandler H)
    (frame : Json) (msg : WorkerMessage)
    (hum : unmarshalWorkerMessage frame = .ok msg) :
    receiveMessage deleteAfterReceiving wh frame
      = (match getHandler deleteAfterReceiving wh msg.tag msg.id with
          | (.error e2, wh2) => (.error (.routing e2), wh2)
          | (.ok g, wh2) => (.ok (g, msg.data), wh2)) := by
  unfold receiveMessage
  rw [hum]

/-- C8 amended: absence of any of the three envelope fields is not a
decode failure: json.Unmarshal gives an absent field its zero value (empty
tag, id 0, empty data) and receiveMessage proceeds to handler lookup, so
an error returned for such a frame can only be a routing error for the
resulting (tag, id), never a malformed-envelope error. -/
theorem unmarshal_missing_fields (t : Tag) (i : Nat) (d : List Nat)
    (hid : i < uint64Card) (hd : ∀ x ∈ d, x < 256) :
    unmarshalWorkerMessage (.obj [("id", .num (i : Int)),
        ("data", .str (String.mk (b64EncodeList d)))])
      = .ok { tag := "", id := i, data := d }
    ∧ unmarshalWorkerMessage (.obj [("tag", .str t),
        ("data", .str (String.mk (b64EncodeList d)))])
      = .ok { tag := t, id := 0, data := d }
    ∧ unmarshalWorkerMessage (.obj [("tag", .str t), ("id", .num (i : Int))])
      = .ok { tag := t, id := i, data := [] }
    ∧ ∀ (deleteAfterReceiving : Tag → Bool) (wh : WorkerHandler H) (e : ReceiveError),
        (receiveMessage deleteAfterReceiving wh
          (.obj [("tag", .str t), ("id", .num (i : Int))])).1 = .error e
        → ∃ he, e = .routing he := by
  have hum3 : unmarshalWorkerMessage (.obj [("tag", .str t), ("id", .num (i : Int))])
      = .ok { tag := t, id := i, data := [] } :=
    unmarshalWorkerMessage_obj_ok _ t i []
      (by rw [unmarshalTagField, jsonField_tagID_tag])
      (unmarshalIDField_num _ i hid (jsonField_tagID_id _ _))
      (by rw [unmarshalDataField, jsonField_tagID_data])
  refine ⟨?_, ?_, hum3, ?_⟩
  · exact unmarshalWorkerMessage_obj_ok _ "" i d
      (by rw [unmarshalTagField, jsonField_idData_tag])
      (unmarshalIDField_num _ i hid (jsonField_idData_id _ _))
      (unmarshalDataField_b64 _ d hd (jsonField_idData_data _ _))
  · exact unmarshalWorkerMessage_obj_ok _ t 0 d
      (by rw [unmarshalTagField, jsonField_tagData_tag])
      (by rw [unmarshalIDField, jsonField_tagData_id])
      (unmarshalDataField_b64 _ d hd (jsonField_tagData_data _ _))
  · intro deleteAfterReceiving wh e hrec
    rw [receiveMessage_decoded deleteAfterReceiving wh _ _ hum3] at hrec
    rw [show ({ tag := t, id := i, data := [] } : WorkerMessage).tag = t from rfl,
      show ({ tag := t, id := i, data := [] } : WorkerMessage).id = i from rfl] at hrec
    rcases hg : getHandler deleteAfterReceiving wh t i with ⟨r, wh2⟩
    rw [hg] at hrec
    cases r with
    | error e2 =>
      have h5 : ReceiveError.routing e2 = e := by injection hrec
      exact ⟨e2, h5.symm⟩
    | ok g => exact Except.noConfusion hrec

theorem unmarshal_missing_fields_witness :
    (3 : Nat) < uint64Card ∧ (∀ x ∈ [9, 200], x < 256)
    ∧ (unmarshalWorkerMessage (.obj [("id", .num ((3 : Nat) : Int)),
          ("data", .str (String.mk (b64EncodeList [9, 200])))])
        = .ok { tag := "", id := 3, data := [9, 200] }
      ∧ unmarshalWorkerMessage (.obj [("tag", .str "E"),
          ("data", .str (String.mk (b64EncodeList [9, 200])))])
        = .ok { tag := "E", id := 0, data := [9, 200] }
      ∧ unmarshalWorkerMessage (.obj [("tag", .str "E"), ("id", .num ((3 : Nat) : Int))])
        = .ok { tag := "E", id := 3, data := [] }
      ∧ ∀ (deleteAfterReceiving : Tag → Bool) (wh : WorkerHandler Nat) (e : ReceiveError),
          (receiveMessage deleteAfterReceiving wh
            (.obj [("tag", .str "E"), ("id", .num ((3 : Nat) : Int))])).1 = .error e
          → ∃ he, e = .routing he) :=
  ⟨by decide, by decide, unmarshal_missing_fields "E" 3 [9, 200] (by decide) (by decide)⟩

/-! ## Claim C10 -/

/-- C10: for a tag whose ID counter has not been touched, the first
auto-allocated correlation ID equals InitID = 0: the first SendMessage
with a reply handler registers that handler at (tag, 0), the same slot
filled by explicit registrations at InitID (such as the ReadyTag readiness
handler), whose occupant it silently replaces, and a message sent without
a reply handler also carries id 0, addressing that same slot. -/
theorem first_autoID_is_InitID (wh : WorkerHandler H) (t : Tag) (d d2 : List Nat)
    (f : H) (hfresh : lookupA wh.handlerIDs t = none) :
    (SendMessage wh t d (some f)).2.id = InitID
    ∧ lookupHandler (SendMessage wh t d (some f)).1 t InitID = some f
    ∧ (SendMessage wh t d2 none).2.id = InitID
    ∧ ∀ g : H, lookupHandler wh t InitID = some g →
        lookupHandler (SendMessage wh t d (some f)).1 t InitID = some f := by
  have hid : (SendMessage wh t d (some f)).2.id = InitID := by
    show (RegisterHandler wh t 0 true f).1 = InitID
    rw [RegisterHandler_true_eq]
    simp [nextIDOf, hfresh]
  have hlk : lookupHandler (SendMessage wh t d (some f)).1 t InitID = some f := by
    have h2 : lookupHandler (SendMessage wh t d (some f)).1 t
        ((SendMessage wh t d (some f)).2.id) = some f := by
      show lookupHandler (RegisterHandler wh t 0 true f).2 t
        ((RegisterHandler wh t 0 true f).1) = some f
      simp [RegisterHandler_true_eq, lookupHandler]
    rwa [hid] at h2
  exact ⟨hid, hlk, rfl, fun _ _ => hlk⟩

/-- Concrete registry with an explicit handler in the (A, InitID) slot,
used to instantiate the C10 statement. -/
def exampleRegistry : WorkerHandler Nat :=
  { handlers := [("A", [(InitID, 9)])], handlerIDs := [], name := "w" }

theorem first_autoID_is_InitID_witness :
    lookupA exampleRegistry.handlerIDs "A" = none
    ∧ ((SendMessage exampleRegistry "A" [3] (some 8)).2.id = InitID
      ∧ lookupHandler (SendMessage exampleRegistry "A" [3] (some 8)).1 "A" InitID = some 8
      ∧ (SendMessage exampleRegistry "A" [4] none).2.id = InitID
      ∧ ∀ g : Nat, lookupHandler exampleRegistry "A" InitID = some g →
          lookupHandler (SendMessage exampleRegistry "A" [3] (some 8)).1 "A" InitID = some 8) :=
  ⟨rfl, first_autoID_is_InitID exampleRegistry "A" [3] [4] 8 rfl⟩

end WorkerModel
